import Mathlib

/-
Verification of the investment lifecycle and payment reconciliation engine of the
agri-invest repository. The definitions below are a shallow embedding of the Django
views in src/investments/views.py, src/storage/views.py and src/admin_api/views.py:
each database table becomes a list of records, each endpoint becomes a pure function
from a state to a response paired with the successor state. Monetary amounts are
modelled as rationals (the source uses fixed-point decimals), dates and timestamps
as natural numbers, and status fields as the exact status strings of the source.
-/

namespace AgriInvest

/-- InvestmentPackage row: slot inventory plus the fields the engine reads
(name for ledger descriptions, end_date for force approval). -/
structure Package where
  id : Nat
  name : String
  total_slots : Int
  available_slots : Int
  end_date : Nat
  status : String
deriving DecidableEq, Repr

/-- Investment row (src/investments models, as used by the views). -/
structure Investment where
  id : Nat
  user : Nat
  package : Nat
  amount : Rat
  status : String
  start_date : Nat
  end_date : Nat
  completed_date : Option Nat
  actual_return : Rat
  withdrawal_request : Option Nat
deriving DecidableEq, Repr

/-- Payment row. metadata is the JSON dict, modelled as an association list. -/
structure Payment where
  id : Nat
  user : Nat
  investment : Option Nat
  amount : Rat
  status : String
  payment_method : String
  paystack_reference : String
  paid_at : Option Nat
  created_at : Nat
  metadata : List (String × String)
deriving DecidableEq, Repr

/-- Transaction row: the ledger entry. -/
structure Transaction where
  id : Nat
  user : Nat
  investment : Option Nat
  transaction_type : String
  amount : Rat
  status : String
  payment_method : String
  payment_reference : String
  description : String
deriving DecidableEq, Repr

/-- WithdrawalRequest row. investments is the many-to-many link set. -/
structure Withdrawal where
  id : Nat
  user : Nat
  amount : Rat
  type : String
  status : String
  processed_date : Option Nat
  admin_notes : String
  payment_reference : String
  investments : List Nat
deriving DecidableEq, Repr

/-- The persistent state of the direct-investment domain. -/
structure EngineState where
  packages : List Package
  investments : List Investment
  payments : List Payment
  ledger : List Transaction
  withdrawals : List Withdrawal
deriving DecidableEq, Repr

/-- An HTTP response, reduced to the status code and the distinguishing message. -/
structure Resp where
  code : Nat
  msg : String
deriving DecidableEq, Repr

/-- Outcome of the outbound Paystack verification call made by PaymentViewSet.verify:
ok models response.get of the status key being truthy, txStatus the transaction_data
status string, raw the transaction_data payload stored into the payment metadata. -/
structure GatewayResp where
  ok : Bool
  txStatus : String
  raw : String
deriving DecidableEq, Repr

/-- Lookup mirroring Investment.objects.get filtered by pk and request.user. -/
def findUserInvestment (s : EngineState) (user invId : Nat) : Option Investment :=
  s.investments.find? (fun i => i.id == invId && i.user == user)

/-- Lookup mirroring Investment.objects.get by pk alone (admin views). -/
def findInvestmentById (s : EngineState) (invId : Nat) : Option Investment :=
  s.investments.find? (fun i => i.id == invId)

/-- Lookup of a package row by id. -/
def findPackage (s : EngineState) (pkgId : Nat) : Option Package :=
  s.packages.find? (fun p => p.id == pkgId)

/-- Payment.objects.get by paystack_reference and user (PaymentViewSet.verify). -/
def findPaymentByRefUser (s : EngineState) (reference : String) (user : Nat) : Option Payment :=
  s.payments.find? (fun p => p.paystack_reference == reference && p.user == user)

/-- Payment.objects.get by paystack_reference alone (webhook handler). -/
def findPaymentByRef (s : EngineState) (reference : String) : Option Payment :=
  s.payments.find? (fun p => p.paystack_reference == reference)

/-- Payment.objects.filter(user, status pending).order_by descending created_at .first. -/
def mostRecentPending (s : EngineState) (user : Nat) : Option Payment :=
  (s.payments.filter (fun p => p.user == user && p.status == "pending")).foldl
    (fun acc p =>
      match acc with
      | none => some p
      | some q => if p.created_at > q.created_at then some p else some q) none

/-- Save a payment row back (match on primary key). -/
def setPayment (s : EngineState) (p : Payment) : EngineState :=
  { s with payments := s.payments.map (fun q => if q.id == p.id then p else q) }

/-- Update the investment row with the given id. -/
def updInvestment (s : EngineState) (invId : Nat) (g : Investment → Investment) : EngineState :=
  { s with investments := s.investments.map (fun i => if i.id == invId then g i else i) }

/-- Update the package row with the given id. -/
def updPackage (s : EngineState) (pkgId : Nat) (g : Package → Package) : EngineState :=
  { s with packages := s.packages.map (fun p => if p.id == pkgId then g p else p) }

/-- Update the withdrawal row with the given id. -/
def updWithdrawal (s : EngineState) (wid : Nat) (g : Withdrawal → Withdrawal) : EngineState :=
  { s with withdrawals := s.withdrawals.map (fun w => if w.id == wid then g w else w) }

/-- Transaction.objects.create: the new ledger row is appended. -/
def addLedger (s : EngineState) (t : Transaction) : EngineState :=
  { s with ledger := s.ledger ++ [t] }

/-- Package name used in ledger descriptions (empty if the row is absent). -/
def packageName (s : EngineState) (pkgId : Nat) : String :=
  match findPackage s pkgId with
  | some p => p.name
  | none => ""

/-- Assignment into the metadata dict: replace the value under the key, or add it. -/
def setMeta (m : List (String × String)) (k v : String) : List (String × String) :=
  if m.any (fun q => q.1 == k) then m.map (fun q => if q.1 == k then (k, v) else q)
  else m ++ [(k, v)]

/-- Shared confirmed-success block of PaymentViewSet.verify (src/investments/views.py
lines 782-808) and PaystackWebhookView.post (lines 854-881): mark the Payment success
with paid_at and metadata, and when an Investment is linked set it active, decrement
the package available_slots, and append an investment ledger entry. The source has no
guard on the current payment or investment status before any of these writes. -/
def confirmPayment (s : EngineState) (p : Payment) (now : Nat) (metaKey metaVal : String) :
    EngineState :=
  let p' := { p with status := "success", paid_at := some now,
                     metadata := setMeta p.metadata metaKey metaVal }
  let s1 := setPayment s p'
  match p.investment with
  | none => s1
  | some invId =>
      match findInvestmentById s invId with
      | none => s1
      | some inv =>
          let s2 := updInvestment s1 invId (fun i => { i with status := "active" })
          let s3 := updPackage s2 inv.package
            (fun g => { g with available_slots := g.available_slots - 1 })
          let tx : Transaction :=
            { id := s3.ledger.length
              user := p.user
              investment := some invId
              transaction_type := "investment"
              amount := p.amount
              status := "completed"
              payment_method := p.payment_method
              payment_reference := p'.paystack_reference
              description := "Payment for " ++ packageName s inv.package }
          addLedger s3 tx

/-- Gateway-response branch of PaymentViewSet.verify (lines 779-825): success runs the
shared confirmation block, any other gateway transaction status marks the payment
failed, and a falsy outer status leaves the state untouched. -/
def verifyWithPayment (s : EngineState) (p : Payment) (gw : GatewayResp) (now : Nat) :
    Resp × EngineState :=
  if gw.ok then
    if gw.txStatus == "success" then
      (⟨200, "success"⟩, confirmPayment s p now "verification_data" gw.raw)
    else
      (⟨200, "failed"⟩, setPayment s { p with status := "failed" })
  else
    (⟨200, "error"⟩, s)

/-- PaymentViewSet.verify (src/investments/views.py lines 740-830). When no payment of
the caller carries the supplied reference, the source falls back to the most
recent pending payment of the caller and rebinds its paystack_reference to the supplied one before
calling the gateway; only when that fallback also finds nothing does it answer 404. -/
def verify (s : EngineState) (user : Nat) (reference : String) (gw : GatewayResp)
    (now : Nat) : Resp × EngineState :=
  if reference == "" then (⟨400, "Reference is required"⟩, s)
  else
    match findPaymentByRefUser s reference user with
    | some p => verifyWithPayment s p gw now
    | none =>
        match mostRecentPending s user with
        | none => (⟨404, "Payment not found"⟩, s)
        | some q =>
            let q' := { q with paystack_reference := reference }
            verifyWithPayment (setPayment s q') q' gw now

/-- PaystackWebhookView.verify_signature (lines 892-906): absent or empty signature or
empty secret rejects, otherwise constant-time comparison against the keyed SHA-512 hash
of the raw body. The hash itself is an abstract function parameter hmacF of the model. -/
def verifySignature (hmacF : String → String → String) (secret : String) (body : String)
    (sig : Option String) : Bool :=
  match sig with
  | none => false
  | some sv =>
      if sv == "" then false
      else if secret == "" then false
      else hmacF secret body == sv

/-- PaystackWebhookView.post (lines 837-890). event and reference are the parsed form
of the raw body; the signature is checked against the raw body itself. -/
def webhookPost (hmacF : String → String → String) (secret : String) (s : EngineState)
    (body : String) (sig : Option String) (event : String) (reference : String)
    (now : Nat) : Resp × EngineState :=
  if verifySignature hmacF secret body sig then
    if event == "charge.success" then
      match findPaymentByRef s reference with
      | none => (⟨404, "Payment not found"⟩, s)
      | some p => (⟨200, "success"⟩, confirmPayment s p now "paystack_data" body)
    else (⟨200, "ignored"⟩, s)
  else (⟨400, "Invalid signature"⟩, s)

/-- Primitive effects of the cancel endpoint, recorded in order of execution so the
mandated ordering (ledger write before row deletion) is visible in the model. -/
inductive Eff where
  | ledgerWrite
  | slotIncrement
  | investmentDelete
deriving DecidableEq, Repr

/-- InvestmentViewSet.cancel (lines 221-253): only a pending investment of the caller
may be cancelled; then a refund ledger entry for the full amount is written, the
package available_slots is incremented, and the investment row is deleted (the
transient status change to cancelled before the delete is invisible in the final
state). The trace lists the effects in source order. -/
def cancel (s : EngineState) (user invId : Nat) : Resp × EngineState × List Eff :=
  match findUserInvestment s user invId with
  | none => (⟨404, "Not found"⟩, s, [])
  | some inv =>
      if inv.status == "pending" then
        let refundTx : Transaction :=
          { id := s.ledger.length
            user := user
            investment := some invId
            transaction_type := "refund"
            amount := inv.amount
            status := "completed"
            payment_method := ""
            payment_reference := ""
            description := "Refund for cancelled investment in " ++ packageName s inv.package }
        let s1 := addLedger s refundTx
        let s2 := updPackage s1 inv.package
          (fun g => { g with available_slots := g.available_slots + 1 })
        let s3 := { s2 with investments := s2.investments.filter (fun i => !(i.id == invId)) }
        (⟨200, "Investment cancelled and deleted successfully"⟩, s3,
         [Eff.ledgerWrite, Eff.slotIncrement, Eff.investmentDelete])
      else
        (⟨400, "Only pending investments can be cancelled"⟩, s, [])

/-- InvestmentViewSet.complete (lines 154-189): an active investment past its end_date
becomes completed; payments of the investment still in status cancelled are purged. -/
def complete (s : EngineState) (user invId : Nat) (today now : Nat) : Resp × EngineState :=
  match findUserInvestment s user invId with
  | none => (⟨404, "Not found"⟩, s)
  | some inv =>
      if inv.status == "active" then
        if today < inv.end_date then
          (⟨400, "Investment is not yet due for completion"⟩, s)
        else
          let s1 := updInvestment s invId
            (fun i => { i with status := "completed", completed_date := some now })
          let keep : Payment → Bool :=
            fun p => !(p.investment == some invId && p.status == "cancelled")
          let s2 := { s1 with payments := s1.payments.filter keep }
          (⟨200, "Investment marked as completed"⟩, s2)
      else
        (⟨400, "Only active investments can be completed"⟩, s)

/-- AdminInvestmentViewSet.approve (lines 421-451): a pending investment with exactly
one successful payment becomes active. Payment.objects.get answers the single match,
raises DoesNotExist when there is none (caught, 400) and MultipleObjectsReturned when
there are several (uncaught, 500); in every non-single case the state is unchanged. -/
def adminApprove (s : EngineState) (invId : Nat) : Resp × EngineState :=
  match findInvestmentById s invId with
  | none => (⟨404, "Not found"⟩, s)
  | some inv =>
      if inv.status == "pending" then
        match s.payments.filter (fun p => p.investment == some invId && p.status == "success") with
        | [] => (⟨400, "Investment cannot be approved without successful payment"⟩, s)
        | [_] => (⟨200, "Investment approved successfully"⟩,
                  updInvestment s invId (fun i => { i with status := "active" }))
        | _ => (⟨500, "Multiple successful payments"⟩, s)
      else (⟨400, "Only pending investments can be approved"⟩, s)

/-- AdminInvestmentViewSet.reject (lines 453-467): a pending investment is set to
cancelled (and, unlike user cancellation, kept in storage). -/
def adminReject (s : EngineState) (invId : Nat) : Resp × EngineState :=
  match findInvestmentById s invId with
  | none => (⟨404, "Not found"⟩, s)
  | some inv =>
      if inv.status == "pending" then
        (⟨200, "Investment rejected successfully"⟩,
         updInvestment s invId (fun i => { i with status := "cancelled" }))
      else (⟨400, "Only pending investments can be rejected"⟩, s)

/-- Fresh primary key for a payment row. -/
def nextPaymentId (s : EngineState) : Nat :=
  s.payments.foldl (fun a p => max a (p.id + 1)) 0

/-- AdminInvestmentViewSet.force_approve (lines 515-560): no status precondition at
all; the investment is set active with fresh dates and a brand-new Payment row with
status success and an admin-override reference is created unconditionally. -/
def forceApprove (s : EngineState) (adminUser invId : Nat) (now : Nat) : Resp × EngineState :=
  match findInvestmentById s invId with
  | none => (⟨404, "Investment not found"⟩, s)
  | some inv =>
      let pkgEnd := match findPackage s inv.package with
        | some g => g.end_date
        | none => 0
      let s1 := updInvestment s invId
        (fun i => { i with status := "active", start_date := now, end_date := pkgEnd })
      let newPayment : Payment :=
        { id := nextPaymentId s1
          user := inv.user
          investment := some invId
          amount := inv.amount
          status := "success"
          payment_method := "admin_override"
          paystack_reference := "ADMIN-APPROVAL-" ++ toString now
          paid_at := none
          created_at := now
          metadata := [("admin_override", "true"), ("admin_user", toString adminUser)] }
      (⟨200, "Investment force approved"⟩,
       { s1 with payments := s1.payments ++ [newPayment] })

/-- Eligible investments of WithdrawalRequestViewSet.create (lines 926-930): completed,
owned by the caller, not yet linked to a withdrawal request. -/
def eligibleInvestments (s : EngineState) (user : Nat) : List Investment :=
  s.investments.filter
    (fun i => i.user == user && i.status == "completed" && i.withdrawal_request == none)

/-- The investments the request settles (lines 939-944): the eligible set, narrowed to
the caller-supplied ids when that list is non-empty. -/
def selectedInvestments (s : EngineState) (user : Nat) (ids : List Nat) : List Investment :=
  let elig := eligibleInvestments s user
  if ids.isEmpty then elig else elig.filter (fun i => ids.contains i.id)

/-- Sum of actual_return over a selection (total_amount in the source). -/
def sumReturns (l : List Investment) : Rat :=
  (l.map (fun i => i.actual_return)).sum

/-- Sum of principal amounts over a selection (principal_amount in the source). -/
def sumPrincipal (l : List Investment) : Rat :=
  (l.map (fun i => i.amount)).sum

/-- Amount computation of lines 952-960: interest and reinvest pay returns minus
principal, every other type (full) pays the total returns. -/
def withdrawalAmount (wtype : String) (l : List Investment) : Rat :=
  if wtype == "interest" then sumReturns l - sumPrincipal l
  else if wtype == "reinvest" then sumReturns l - sumPrincipal l
  else sumReturns l

/-- Fresh primary key for a withdrawal row. -/
def nextWithdrawalId (s : EngineState) : Nat :=
  s.withdrawals.foldl (fun a w => max a (w.id + 1)) 0

/-- WithdrawalRequestViewSet.create (lines 921-978): reject when no eligible or no
selected investments exist, otherwise create a pending WithdrawalRequest with the
computed amount and link every selected investment to it. -/
def createWithdrawal (s : EngineState) (user : Nat) (wtype : String) (ids : List Nat) :
    Resp × EngineState :=
  if (eligibleInvestments s user).isEmpty then
    (⟨400, "No completed investments available for withdrawal"⟩, s)
  else
    let sel := selectedInvestments s user ids
    if sel.isEmpty then (⟨400, "No valid investments selected"⟩, s)
    else
      let wid := nextWithdrawalId s
      let w : Withdrawal :=
        { id := wid
          user := user
          amount := withdrawalAmount wtype sel
          type := wtype
          status := "pending"
          processed_date := none
          admin_notes := ""
          payment_reference := ""
          investments := sel.map (fun i => i.id) }
      let link : Investment → Investment :=
        fun i => if sel.any (fun j => j.id == i.id) then { i with withdrawal_request := some wid } else i
      let s1 := { s with investments := s.investments.map link,
                         withdrawals := s.withdrawals ++ [w] }
      (⟨201, "created"⟩, s1)

/-- process_withdrawal (lines 1025-1090): approve from pending or failed, reject from
pending only, mark_paid from approved only; notes are appended, never overwritten. -/
def processWithdrawal (s : EngineState) (wid : Nat) (act : String) (now : Nat) :
    Resp × EngineState :=
  match s.withdrawals.find? (fun w => w.id == wid) with
  | none => (⟨404, "Withdrawal request not found"⟩, s)
  | some w =>
      if !(act == "approve" || act == "reject" || act == "mark_paid") then
        (⟨400, "Invalid action"⟩, s)
      else if act == "mark_paid" then
        if w.status == "approved" then
          (⟨200, "ok"⟩, updWithdrawal s wid (fun v =>
            { v with status := "completed", processed_date := some now,
                     admin_notes := v.admin_notes ++ "\nMarked as paid manually by admin." }))
        else (⟨400, "Only approved withdrawals can be marked as paid."⟩, s)
      else if act == "approve" then
        if w.status == "pending" || w.status == "failed" then
          (⟨200, "ok"⟩, updWithdrawal s wid (fun v =>
            { v with status := "approved", processed_date := some now,
                     payment_reference := "PAY-" ++ toString now }))
        else (⟨400, "Withdrawal is already processed"⟩, s)
      else
        if w.status == "pending" then
          (⟨200, "ok"⟩, updWithdrawal s wid (fun v =>
            { v with status := "rejected", processed_date := some now,
                     admin_notes := v.admin_notes ++ "\nRejected by admin." }))
        else (⟨400, "Withdrawal is already processed"⟩, s)

/-- Modelled from the spec: Investment creation. The serializer that creates the row
(investments/serializers.py) is not under src/; per spec section 4.1 the row is created
pending and "slots are decremented only after successful payment, not at investment
creation", and section 9 confirms "the source reserves no slot at Investment
creation", so creation appends a pending row and leaves the package untouched. -/
def createInvestment (s : EngineState) (user pkgId : Nat) (amount : Rat)
    (startD endD : Nat) : EngineState :=
  let iid := s.investments.foldl (fun a i => max a (i.id + 1)) 0
  let inv : Investment :=
    { id := iid
      user := user
      package := pkgId
      amount := amount
      status := "pending"
      start_date := startD
      end_date := endD
      completed_date := none
      actual_return := 0
      withdrawal_request := none }
  { s with investments := s.investments ++ [inv] }

/-- Modelled from the spec: Payment creation. The serializer creating the row is not
under src/; the row starts pending, and perform_create (src/investments/views.py lines
706-720) then assigns the paystack_reference INV_id_time. -/
def createPayment (s : EngineState) (user : Nat) (invId : Option Nat) (amount : Rat)
    (now : Nat) : EngineState :=
  let pid := nextPaymentId s
  let p : Payment :=
    { id := pid
      user := user
      investment := invId
      amount := amount
      status := "pending"
      payment_method := "paystack"
      paystack_reference := "INV_" ++ toString pid ++ "_" ++ toString now
      paid_at := none
      created_at := now
      metadata := [] }
  { s with payments := s.payments ++ [p] }

/-- Decimal parse of the id part of a transaction pk (the int conversion the Django
object lookup performs on the pk string). -/
def parseNatDigits (cs : List Char) : Option Nat :=
  if cs.isEmpty then none
  else cs.foldl (fun acc c =>
    match acc with
    | none => none
    | some n => if c.isDigit then some (n * 10 + (c.toNat - 48)) else none) (some 0)

/-- update_transaction in src/admin_api/views.py (lines 61-106), INV- branch: an admin
PUT rewrites amount and status of an existing investment-domain Transaction in place.
The STO- and ORD- branches address the storage and e-commerce record types and are
outside this state; any other pk shape is a 400 with no mutation. -/
def updateTransaction (s : EngineState) (pk : String) (amount2 : Option Rat)
    (status2 : Option String) : Resp × EngineState :=
  if pk.data.take 4 = "INV-".data then
    match parseNatDigits (pk.data.drop 4) with
    | none => (⟨404, "Transaction not found"⟩, s)
    | some tid =>
        if s.ledger.any (fun t => t.id == tid) then
          let g : Transaction → Transaction := fun t =>
            { t with amount := match amount2 with | some a => a | none => t.amount,
                     status := match status2 with | some v => v | none => t.status }
          (⟨200, "Investment transaction updated successfully"⟩,
           { s with ledger := s.ledger.map (fun t => if t.id == tid then g t else t) })
        else (⟨404, "Transaction not found"⟩, s)
  else (⟨400, "Invalid transaction ID format"⟩, s)

/-- StoragePlan row of the storage domain (available commodity quantity). -/
structure StoragePlan where
  id : Nat
  product_name : String
  available_quantity : Int
deriving DecidableEq, Repr

/-- StorageInvestment row, as mutated by the storage webhook. -/
structure StorageInvestment where
  id : Nat
  user : Nat
  plan : Nat
  quantity_bags : Int
  status : String
  payment_status : String
  payment_date : Option Nat
  payment_reference : String
deriving DecidableEq, Repr

/-- PaymentTransaction row of the storage domain. -/
structure PaymentTransaction where
  id : Nat
  investment : Nat
  reference : String
  amount : Rat
  status : String
  gateway_reference : String
  paid_at : Option Nat
deriving DecidableEq, Repr

/-- StorageUpdate row (notification records appended by the storage webhook). -/
structure StorageUpdateRec where
  investment : Nat
  update_type : String
  title : String
deriving DecidableEq, Repr

/-- Persistent state of the storage-investment domain. -/
structure StorageState where
  plans : List StoragePlan
  investments : List StorageInvestment
  payments : List PaymentTransaction
  updates : List StorageUpdateRec
deriving DecidableEq, Repr

/-- PaymentTransaction.objects.get by reference. -/
def findStoragePaymentByRef (st : StorageState) (reference : String) :
    Option PaymentTransaction :=
  st.payments.find? (fun p => p.reference == reference)

/-- StorageInvestment lookup by id. -/
def findStorageInvestment (st : StorageState) (iid : Nat) : Option StorageInvestment :=
  st.investments.find? (fun i => i.id == iid)

/-- Modelled from the spec: StoragePlan.release_quantity (storage/models.py is not
under src/); per spec section 4.1 release returns a reserved quantity to the plan
availability, so the plan available_quantity grows by the released amount. -/
def release_quantity (st : StorageState) (planId : Nat) (qty : Int) : StorageState :=
  { st with plans := st.plans.map (fun g =>
      if g.id == planId then { g with available_quantity := g.available_quantity + qty } else g) }

/-- paystack_webhook in src/storage/views.py (lines 177-262). charge.success marks the
payment successful and the investment active and paid; charge.failed marks the payment
failed, releases the reserved quantity, and sets the investment to cancelled. -/
def storagePaystackWebhook (hmacF : String → String → String) (secret : String)
    (st : StorageState) (body : String) (sig : Option String) (event : String)
    (reference : String) (gatewayId : String) (now : Nat) : Resp × StorageState :=
  match sig with
  | none => (⟨400, "No signature"⟩, st)
  | some sv =>
      if sv == "" then (⟨400, "No signature"⟩, st)
      else if !(hmacF secret body == sv) then (⟨400, "Invalid signature"⟩, st)
      else if event == "charge.success" then
        match findStoragePaymentByRef st reference with
        | none => (⟨404, "Transaction not found"⟩, st)
        | some p =>
            let markPaid : PaymentTransaction → PaymentTransaction := fun q =>
              if q.id == p.id then
                { q with status := "successful", gateway_reference := gatewayId,
                         paid_at := some now }
              else q
            let st1 := { st with payments := st.payments.map markPaid }
            let activate : StorageInvestment → StorageInvestment := fun i =>
              if i.id == p.investment then
                { i with status := "active", payment_status := "paid",
                         payment_date := some now, payment_reference := reference }
              else i
            let st2 := { st1 with investments := st1.investments.map activate }
            let note : StorageUpdateRec :=
              { investment := p.investment
                update_type := "storage_start"
                title := "Payment Confirmed - Storage Started" }
            (⟨200, "success"⟩, { st2 with updates := st2.updates ++ [note] })
      else if event == "charge.failed" then
        match findStoragePaymentByRef st reference with
        | none => (⟨404, "Transaction not found"⟩, st)
        | some p =>
            let markFailed : PaymentTransaction → PaymentTransaction := fun q =>
              if q.id == p.id then { q with status := "failed" } else q
            let st1 := { st with payments := st.payments.map markFailed }
            match findStorageInvestment st p.investment with
            | none => (⟨200, "success"⟩, st1)
            | some inv =>
                let st2 := release_quantity st1 inv.plan inv.quantity_bags
                let cancelInv : StorageInvestment → StorageInvestment := fun i =>
                  if i.id == p.investment then { i with status := "cancelled" } else i
                let st3 := { st2 with investments := st2.investments.map cancelInv }
                (⟨200, "success"⟩, st3)
      else (⟨200, "success"⟩, st)

/-- The engine operations of the direct-investment domain, for the quantified
ledger-immutability statement. -/
inductive Op where
  | opVerify (user : Nat) (reference : String) (gw : GatewayResp) (now : Nat)
  | opWebhook (body : String) (sig : Option String) (event reference : String) (now : Nat)
  | opCancel (user invId : Nat)
  | opComplete (user invId today now : Nat)
  | opAdminApprove (invId : Nat)
  | opAdminReject (invId : Nat)
  | opForceApprove (adminUser invId now : Nat)
  | opCreateWithdrawal (user : Nat) (wtype : String) (ids : List Nat)
  | opProcessWithdrawal (wid : Nat) (act : String) (now : Nat)
  | opCreateInvestment (user pkgId : Nat) (amount : Rat) (startD endD : Nat)
  | opCreatePayment (user : Nat) (invId : Option Nat) (amount : Rat) (now : Nat)

/-- State transformer of one engine operation (responses and traces dropped). -/
def stepOp (hmacF : String → String → String) (secret : String) (op : Op)
    (s : EngineState) : EngineState :=
  match op with
  | .opVerify user reference gw now => (verify s user reference gw now).2
  | .opWebhook body sig event reference now =>
      (webhookPost hmacF secret s body sig event reference now).2
  | .opCancel user invId => (cancel s user invId).2.1
  | .opComplete user invId today now => (complete s user invId today now).2
  | .opAdminApprove invId => (adminApprove s invId).2
  | .opAdminReject invId => (adminReject s invId).2
  | .opForceApprove adminUser invId now => (forceApprove s adminUser invId now).2
  | .opCreateWithdrawal user wtype ids => (createWithdrawal s user wtype ids).2
  | .opProcessWithdrawal wid act now => (processWithdrawal s wid act now).2
  | .opCreateInvestment user pkgId amount startD endD =>
      createInvestment s user pkgId amount startD endD
  | .opCreatePayment user invId amount now => createPayment s user invId amount now

/-- Updating the rows selected by a predicate commutes with the first-match lookup,
provided the update preserves the predicate: the lookup then answers the updated row. -/
theorem find_map_comm {α : Type} (l : List α) (pred : α → Bool) (g : α → α)
    (hpred : ∀ x, pred (g x) = pred x) (a : α) (h : l.find? pred = some a) :
    (l.map (fun x => if pred x then g x else x)).find? pred = some (g a) := by
  induction l with
  | nil => simp at h
  | cons b t ih =>
      by_cases hb : pred b = true
      · rw [List.find?_cons_of_pos _ hb] at h
        injection h with h
        subst h
        rw [List.map_cons, if_pos hb]
        exact List.find?_cons_of_pos _ (by rw [hpred]; exact hb)
      · have hb' : ¬ pred b = true := hb
        rw [List.find?_cons_of_neg _ hb'] at h
        rw [List.map_cons, if_neg hb']
        rw [List.find?_cons_of_neg _ hb']
        exact ih h

/-- After filtering out every row with the given id, the id-and-user lookup fails. -/
theorem find_filter_out (l : List Investment) (invId user : Nat) :
    (l.filter (fun i => !(i.id == invId))).find? (fun i => i.id == invId && i.user == user)
      = none := by
  rw [List.find?_eq_none]
  intro x hx
  have hmem := List.mem_filter.mp hx
  simp only [Bool.not_eq_true', beq_eq_false_iff_ne] at hmem
  simp only [Bool.and_eq_true, beq_iff_eq]
  intro hcontra
  exact hmem.2 hcontra.1

/-- Concrete keyed-hash stand-in used by the witnesses. -/
def hmacDemo : String → String → String := fun secret body => secret ++ ":" ++ body

/-- Fixture package: one slot in total, one available. -/
def pkgA : Package :=
  { id := 1, name := "P", total_slots := 1, available_slots := 1, end_date := 100,
    status := "active" }

/-- Fixture pending investment of user 1 in pkgA. -/
def invA : Investment :=
  { id := 1, user := 1, package := 1, amount := 500, status := "pending",
    start_date := 0, end_date := 100, completed_date := none, actual_return := 0,
    withdrawal_request := none }

/-- Fixture pending payment of user 1 for invA with gateway reference ref1. -/
def payA : Payment :=
  { id := 1, user := 1, investment := some 1, amount := 500, status := "pending",
    payment_method := "card", paystack_reference := "ref1", paid_at := none,
    created_at := 0, metadata := [] }

/-- Fixture state: one package with one free slot, one pending investment, one pending
payment, empty ledger. -/
def s0 : EngineState :=
  { packages := [pkgA], investments := [invA], payments := [payA], ledger := [],
    withdrawals := [] }

/-- State after the first delivery of the confirmed-success webhook for ref1. -/
def s1c1 : EngineState :=
  (webhookPost hmacDemo "sk" s0 "body1" (some (hmacDemo "sk" "body1"))
    "charge.success" "ref1" 10).2

/-- State after replaying the identical webhook delivery a second time. -/
def s2c1 : EngineState :=
  (webhookPost hmacDemo "sk" s1c1 "body1" (some (hmacDemo "sk" "body1"))
    "charge.success" "ref1" 10).2

/-- C1: the claim that replaying the identical confirmed-success webhook is a no-op
with exactly one ledger entry fails on the code: PaystackWebhookView.post has no guard
on the current payment status, so the replay decrements available_slots a second time
(from 0 to -1) and appends a second ledger entry for the same payment. -/
theorem c1_webhook_replay_double_credits :
    s1c1.ledger.length = 1 ∧
    s2c1.ledger.length = 2 ∧
    (findPackage s1c1 1).map Package.available_slots = some 0 ∧
    (findPackage s2c1 1).map Package.available_slots = some (-1) ∧
    s2c1 ≠ s1c1 := by
  refine ⟨rfl, rfl, rfl, rfl, ?_⟩
  decide

/-- Fixture state for the slot invariant: the package alone, no investments yet. -/
def s0c2 : EngineState :=
  { packages := [pkgA], investments := [], payments := [], ledger := [],
    withdrawals := [] }

/-- A pending investment is created (no slot is reserved), then cancelled. -/
def s2c2 : EngineState :=
  (cancel (createInvestment s0c2 1 1 200 0 100) 1 0).2.1

/-- C2: the claim 0 ≤ available_slots ≤ total_slots fails on the code: creation of a
pending investment reserves no slot, yet cancellation increments available_slots, so
a single create-then-cancel cycle pushes available_slots to 2 on a package whose
total_slots is 1. (The webhook replay of c1 also drives available_slots to -1.) -/
theorem c2_cancel_pushes_slots_above_total :
    (findPackage s2c2 1).map Package.available_slots = some 2 ∧
    (findPackage s2c2 1).map Package.total_slots = some 1 := by
  exact ⟨rfl, rfl⟩

/-- Fixture state for the single-success invariant: invA already active after its
first confirmed payment (success payment ref1, one ledger entry, zero free slots),
plus a second pending payment ref2 for the same investment. -/
def s0c3 : EngineState :=
  { packages := [{ pkgA with available_slots := 0 }]
    investments := [{ invA with status := "active" }]
    payments := [{ payA with status := "success", paid_at := some 5 },
                 { payA with id := 2, paystack_reference := "ref2", created_at := 1 }]
    ledger := [{ id := 0, user := 1, investment := some 1,
                 transaction_type := "investment", amount := 500, status := "completed",
                 payment_method := "card", payment_reference := "ref1",
                 description := "Payment for P" }]
    withdrawals := [] }

/-- State after a second verification, for the second payment of the same investment,
comes back success from the gateway. -/
def s1c3 : EngineState :=
  (verify s0c3 1 "ref2" { ok := true, txStatus := "success", raw := "d" } 20).2

/-- C3: the claim that a second Payment can never reach success for an Investment that
already has a successful Payment fails on the code: PaymentViewSet.verify has no guard,
so verifying a second pending payment marks it success too (two success payments for
investment 1), appends a second ledger entry, and decrements available_slots to -1. -/
theorem c3_second_payment_reaches_success :
    (s0c3.payments.filter (fun p => p.investment == some 1 && p.status == "success")).length
      = 1 ∧
    (s1c3.payments.filter (fun p => p.investment == some 1 && p.status == "success")).length
      = 2 ∧
    s1c3.ledger.length = 2 ∧
    (findPackage s1c3 1).map Package.available_slots = some (-1) := by
  exact ⟨rfl, rfl, rfl, rfl⟩

/-- C4: for every state, event type and payload, a webhook request whose signature
header is absent or differs from the keyed SHA-512 hash of the raw body under the
shared secret is answered 400 with the invalid-signature error and mutates nothing. -/
theorem c4_invalid_signature_rejected (hmacF : String → String → String)
    (secret : String) (s : EngineState) (body : String) (sig : Option String)
    (event reference : String) (now : Nat)
    (h : sig = none ∨ ∃ sv, sig = some sv ∧ hmacF secret body ≠ sv) :
    webhookPost hmacF secret s body sig event reference now
      = (⟨400, "Invalid signature"⟩, s) := by
  have hv : verifySignature hmacF secret body sig = false := by
    rcases h with h | ⟨sv, hs, hne⟩
    · rw [h]; rfl
    · rw [hs]
      unfold verifySignature
      by_cases h1 : sv == ""
      · simp [h1]
      · simp only [h1, Bool.false_eq_true, if_false]
        by_cases h2 : secret == ""
        · simp [h2]
        · simp only [h2, Bool.false_eq_true, if_false]
          exact beq_eq_false_iff_ne.mpr hne
  unfold webhookPost
  rw [hv]
  rfl

/-- C4 witness: a concrete mismatching signature on the fixture state is rejected with
400 and the state is returned unchanged. -/
theorem c4_invalid_signature_rejected_witness :
    webhookPost hmacDemo "sk" s0 "body1" (some "wrong") "charge.success" "ref1" 10
      = (⟨400, "Invalid signature"⟩, s0) :=
  c4_invalid_signature_rejected hmacDemo "sk" s0 "body1" (some "wrong")
    "charge.success" "ref1" 10 (Or.inr ⟨"wrong", rfl, by decide⟩)

/-- The shared confirmation block unconditionally sets the linked investment to
active, whatever status it held before. -/
theorem confirmPayment_activates (s : EngineState) (p : Payment) (now : Nat)
    (metaKey metaVal : String) (invId : Nat) (inv : Investment)
    (hp : p.investment = some invId) (hi : findInvestmentById s invId = some inv) :
    (findInvestmentById (confirmPayment s p now metaKey metaVal) invId).map
      Investment.status = some "active" := by
  unfold confirmPayment
  rw [hp]
  simp only [hi]
  have hfind := find_map_comm s.investments (fun i => i.id == invId)
    (fun i => { i with status := "active" }) (fun x => rfl) inv hi
  unfold findInvestmentById at hfind ⊢
  unfold addLedger updPackage updInvestment setPayment
  rw [hfind]
  rfl

/-- A valid signature makes verifySignature answer true. -/
theorem verifySignature_valid (hmacF : String → String → String) (secret body sv : String)
    (hsv : hmacF secret body = sv) (hne : sv ≠ "") (hsec : secret ≠ "") :
    verifySignature hmacF secret body (some sv) = true := by
  simp only [verifySignature]
  rw [if_neg (by simp [hne]), if_neg (by simp [hsec])]
  exact beq_iff_eq.mpr hsv

/-- C5 amended: completion, user cancellation, admin approve and admin reject all
leave an Investment in status completed or cancelled untouched, but terminality does
not hold for every engine operation: admin force_approve, and the payment-confirmation
handlers (webhook and verify) acting on a payment linked to the investment, set the
investment to active regardless of its current status. -/
theorem c5_terminal_states_amended :
    (∀ (s : EngineState) (user invId today now : Nat) (inv : Investment),
      findUserInvestment s user invId = some inv →
      inv.status = "completed" ∨ inv.status = "cancelled" →
      (complete s user invId today now).2 = s) ∧
    (∀ (s : EngineState) (user invId : Nat) (inv : Investment),
      findUserInvestment s user invId = some inv →
      inv.status = "completed" ∨ inv.status = "cancelled" →
      (cancel s user invId).2.1 = s) ∧
    (∀ (s : EngineState) (invId : Nat) (inv : Investment),
      findInvestmentById s invId = some inv →
      inv.status = "completed" ∨ inv.status = "cancelled" →
      (adminApprove s invId).2 = s) ∧
    (∀ (s : EngineState) (invId : Nat) (inv : Investment),
      findInvestmentById s invId = some inv →
      inv.status = "completed" ∨ inv.status = "cancelled" →
      (adminReject s invId).2 = s) ∧
    (∀ (s : EngineState) (adminUser invId now : Nat) (inv : Investment),
      findInvestmentById s invId = some inv →
      (findInvestmentById (forceApprove s adminUser invId now).2 invId).map
        Investment.status = some "active") ∧
    (∀ (hmacF : String → String → String) (secret : String) (s : EngineState)
      (body sv reference : String) (now invId : Nat) (p : Payment) (inv : Investment),
      hmacF secret body = sv → sv ≠ "" → secret ≠ "" →
      findPaymentByRef s reference = some p → p.investment = some invId →
      findInvestmentById s invId = some inv →
      (findInvestmentById
        (webhookPost hmacF secret s body (some sv) "charge.success" reference now).2
        invId).map Investment.status = some "active") ∧
    (∀ (s : EngineState) (user : Nat) (reference : String) (gw : GatewayResp)
      (now invId : Nat) (p : Payment) (inv : Investment),
      reference ≠ "" →
      findPaymentByRefUser s reference user = some p →
      gw.ok = true → gw.txStatus = "success" →
      p.investment = some invId →
      findInvestmentById s invId = some inv →
      (findInvestmentById (verify s user reference gw now).2 invId).map
        Investment.status = some "active") := by
  refine ⟨?_, ?_, ?_, ?_, ?_, ?_, ?_⟩
  · intro s user invId today now inv hfind hterm
    unfold complete
    simp only [hfind]
    rcases hterm with h | h <;> rw [h] <;> rfl
  · intro s user invId inv hfind hterm
    unfold cancel
    simp only [hfind]
    rcases hterm with h | h <;> rw [h] <;> rfl
  · intro s invId inv hfind hterm
    unfold adminApprove
    simp only [hfind]
    rcases hterm with h | h <;> rw [h] <;> rfl
  · intro s invId inv hfind hterm
    unfold adminReject
    simp only [hfind]
    rcases hterm with h | h <;> rw [h] <;> rfl
  · intro s adminUser invId now inv hfind
    unfold forceApprove
    simp only [hfind]
    have hres := find_map_comm s.investments (fun i => i.id == invId)
      (fun i => { i with status := "active", start_date := now,
                         end_date := match findPackage s inv.package with
                                      | some g => g.end_date
                                      | none => 0 }) (fun x => rfl) inv hfind
    unfold findInvestmentById at hres ⊢
    unfold updInvestment
    rw [hres]
    rfl
  · intro hmacF secret s body sv reference now invId p inv hsv hne hsec hfp hpi hfi
    unfold webhookPost
    rw [verifySignature_valid hmacF secret body sv hsv hne hsec]
    simp only [if_true]
    rw [show ("charge.success" == "charge.success") = true from rfl]
    simp only [if_true, hfp]
    exact confirmPayment_activates s p now "paystack_data" body invId inv hpi hfi
  · intro s user reference gw now invId p inv href hfp hok hst hpi hfi
    unfold verify
    rw [if_neg (by simp [href])]
    rw [hfp]
    unfold verifyWithPayment
    rw [hok]
    simp only [if_true]
    rw [show (gw.txStatus == "success") = true from beq_iff_eq.mpr hst]
    simp only [if_true]
    exact confirmPayment_activates s p now "verification_data" gw.raw invId inv hpi hfi

/-- Fixture completed investment for the terminal-state claims. -/
def invC5 : Investment :=
  { invA with status := "completed", completed_date := some 50, actual_return := 600 }

/-- Fixture state holding only the completed investment invC5. -/
def s0c5 : EngineState :=
  { packages := [pkgA], investments := [invC5], payments := [], ledger := [],
    withdrawals := [] }

/-- C5 counterexample: force_approve moves a completed investment back to active, so
completed is not terminal under every engine operation as the claim states. -/
theorem c5_force_approve_escapes_terminal :
    (findInvestmentById s0c5 1).map Investment.status = some "completed" ∧
    (findInvestmentById (forceApprove s0c5 9 1 60).2 1).map Investment.status
      = some "active" :=
  ⟨rfl, rfl⟩

/-- C5 witness: the amended theorem applied to concrete terminal investments: complete
and cancel leave the completed investment untouched, while force_approve reactivates
it. -/
theorem c5_terminal_states_amended_witness :
    (complete s0c5 1 1 200 201).2 = s0c5 ∧
    (cancel s0c5 1 1).2.1 = s0c5 ∧
    (findInvestmentById (forceApprove s0c5 9 1 60).2 1).map Investment.status
      = some "active" :=
  ⟨c5_terminal_states_amended.1 s0c5 1 1 200 201 invC5 rfl (Or.inl rfl),
   c5_terminal_states_amended.2.1 s0c5 1 1 invC5 rfl (Or.inl rfl),
   c5_terminal_states_amended.2.2.2.2.1 s0c5 9 1 60 invC5 rfl⟩

/-- C6 amended: on a gateway-reported failure the direct-investment domain marks the
Payment failed and leaves the Investment (and packages and ledger) untouched, so a
pending Investment stays pending; the storage domain however does not leave the
investment pending: its webhook marks the payment failed, releases the reserved
quantity, and sets the storage investment to cancelled. -/
theorem c6_failed_payment_amended :
    (∀ (s : EngineState) (user : Nat) (reference : String) (gw : GatewayResp)
      (now : Nat) (p : Payment),
      reference ≠ "" →
      findPaymentByRefUser s reference user = some p →
      gw.ok = true → gw.txStatus ≠ "success" →
      (verify s user reference gw now).2 = setPayment s { p with status := "failed" } ∧
      (verify s user reference gw now).2.investments = s.investments ∧
      (verify s user reference gw now).2.packages = s.packages ∧
      (verify s user reference gw now).2.ledger = s.ledger) ∧
    (∀ (hmacF : String → String → String) (secret : String) (st : StorageState)
      (body sv reference gid : String) (now : Nat) (p : PaymentTransaction)
      (inv : StorageInvestment),
      sv ≠ "" → hmacF secret body = sv →
      findStoragePaymentByRef st reference = some p →
      findStorageInvestment st p.investment = some inv →
      (((storagePaystackWebhook hmacF secret st body (some sv) "charge.failed"
          reference gid now).2.payments.find? (fun q => q.id == p.id)).map
        PaymentTransaction.status = some "failed") ∧
      (((storagePaystackWebhook hmacF secret st body (some sv) "charge.failed"
          reference gid now).2.investments.find? (fun i => i.id == p.investment)).map
        StorageInvestment.status = some "cancelled")) := by
  constructor
  · intro s user reference gw now p href hfp hok hne
    have hmain : (verify s user reference gw now).2
        = setPayment s { p with status := "failed" } := by
      unfold verify
      rw [if_neg (by simp [href])]
      rw [hfp]
      unfold verifyWithPayment
      rw [hok]
      simp only [if_true]
      rw [show (gw.txStatus == "success") = false from beq_eq_false_iff_ne.mpr hne]
      rfl
    exact ⟨hmain, by rw [hmain]; rfl, by rw [hmain]; rfl, by rw [hmain]; rfl⟩
  · intro hmacF secret st body sv reference gid now p inv hne hsv hfp hfi
    have hmem : p ∈ st.payments := List.mem_of_find?_eq_some hfp
    have hsome : (st.payments.find? (fun q => q.id == p.id)).isSome :=
      List.find?_isSome.mpr ⟨p, hmem, by simp⟩
    obtain ⟨a, ha⟩ := Option.isSome_iff_exists.mp hsome
    have hpay := find_map_comm st.payments (fun q => q.id == p.id)
      (fun q => { q with status := "failed" }) (fun x => rfl) a ha
    have hinv := find_map_comm st.investments (fun i => i.id == p.investment)
      (fun i => { i with status := "cancelled" }) (fun x => rfl) inv hfi
    simp only [storagePaystackWebhook, beq_eq_false_iff_ne.mpr hne,
      Bool.false_eq_true, if_false, beq_iff_eq.mpr hsv, Bool.not_true,
      show ("charge.failed" == "charge.success") = false from rfl,
      show ("charge.failed" == "charge.failed") = true from rfl, if_true, hfp, hfi,
      release_quantity]
    constructor
    · exact (congrArg (Option.map PaymentTransaction.status) hpay).trans rfl
    · exact (congrArg (Option.map StorageInvestment.status) hinv).trans rfl

/-- Fixture storage plan with reserved stock outstanding. -/
def planC6 : StoragePlan := { id := 1, product_name := "Maize", available_quantity := 10 }

/-- Fixture pending storage investment holding 2 reserved bags of planC6. -/
def sinvC6 : StorageInvestment :=
  { id := 1, user := 1, plan := 1, quantity_bags := 2, status := "pending",
    payment_status := "pending", payment_date := none, payment_reference := "" }

/-- Fixture pending storage payment for sinvC6 with reference sref1. -/
def spayC6 : PaymentTransaction :=
  { id := 1, investment := 1, reference := "sref1", amount := 100, status := "pending",
    gateway_reference := "", paid_at := none }

/-- Fixture storage state with the pending investment and its pending payment. -/
def st0c6 : StorageState :=
  { plans := [planC6], investments := [sinvC6], payments := [spayC6], updates := [] }

/-- Storage state after a validly signed charge.failed webhook for sref1. -/
def st1c6 : StorageState :=
  (storagePaystackWebhook hmacDemo "sk" st0c6 "b" (some (hmacDemo "sk" "b"))
    "charge.failed" "sref1" "g1" 30).2

/-- C6 counterexample: in the storage domain a gateway-reported failure does not leave
the investment pending as the claim states: the storage webhook sets it to cancelled
(and releases the two reserved bags back to the plan). -/
theorem c6_storage_failure_cancels_investment :
    (st1c6.investments.find? (fun i => i.id == 1)).map StorageInvestment.status
      = some "cancelled" ∧
    (st1c6.payments.find? (fun q => q.id == 1)).map PaymentTransaction.status
      = some "failed" ∧
    (st1c6.plans.find? (fun g => g.id == 1)).map StoragePlan.available_quantity
      = some 12 :=
  ⟨rfl, rfl, rfl⟩

/-- C6 witness: the amended theorem applied to concrete states of both domains: the
direct-domain verify marks the payment failed and leaves investments, packages and
ledger untouched, and the storage webhook marks the payment failed and the investment
cancelled. -/
theorem c6_failed_payment_amended_witness :
    ((verify s0 1 "ref1" ⟨true, "failed", ""⟩ 7).2
        = setPayment s0 { payA with status := "failed" } ∧
      (verify s0 1 "ref1" ⟨true, "failed", ""⟩ 7).2.investments = s0.investments) ∧
    (((storagePaystackWebhook hmacDemo "sk" st0c6 "b" (some (hmacDemo "sk" "b"))
        "charge.failed" "sref1" "g1" 30).2.payments.find? (fun q => q.id == spayC6.id)).map
      PaymentTransaction.status = some "failed") := by
  have hd := c6_failed_payment_amended.1 s0 1 "ref1" ⟨true, "failed", ""⟩ 7 payA
    (by decide) rfl rfl (by decide)
  have hs := c6_failed_payment_amended.2 hmacDemo "sk" st0c6 "b" (hmacDemo "sk" "b")
    "sref1" "g1" 30 spayC6 sinvC6 (by decide) rfl rfl rfl
  exact ⟨⟨hd.1, hd.2.1⟩, hs.1⟩

/-- The confirmation block only ever appends to the ledger. -/
theorem ledger_confirmPayment (s : EngineState) (p : Payment) (now : Nat)
    (mk mv : String) : ∃ t, (confirmPayment s p now mk mv).ledger = s.ledger ++ t := by
  unfold confirmPayment
  repeat' split
  all_goals first
    | exact ⟨[], (List.append_nil _).symm⟩
    | exact ⟨_, rfl⟩

/-- verify only ever appends to the ledger. -/
theorem ledger_verify (s : EngineState) (user : Nat) (reference : String)
    (gw : GatewayResp) (now : Nat) :
    ∃ t, (verify s user reference gw now).2.ledger = s.ledger ++ t := by
  unfold verify verifyWithPayment
  repeat' split
  all_goals first
    | exact ⟨[], (List.append_nil _).symm⟩
    | exact ledger_confirmPayment _ _ _ _ _

/-- The webhook handler only ever appends to the ledger. -/
theorem ledger_webhook (hmacF : String → String → String) (secret : String)
    (s : EngineState) (body : String) (sig : Option String) (event reference : String)
    (now : Nat) :
    ∃ t, (webhookPost hmacF secret s body sig event reference now).2.ledger
      = s.ledger ++ t := by
  unfold webhookPost
  repeat' split
  all_goals first
    | exact ⟨[], (List.append_nil _).symm⟩
    | exact ledger_confirmPayment _ _ _ _ _

/-- C7 amended, engine part: every operation of the investment lifecycle engine only
appends to the ledger, so every pre-existing Transaction still exists, in place and
with unchanged fields, after the operation. -/
theorem c7_engine_ops_append_only (hmacF : String → String → String) (secret : String)
    (op : Op) (s : EngineState) :
    ∃ t : List Transaction, (stepOp hmacF secret op s).ledger = s.ledger ++ t := by
  cases op with
  | opVerify user reference gw now =>
      exact ledger_verify s user reference gw now
  | opWebhook body sig event reference now =>
      exact ledger_webhook hmacF secret s body sig event reference now
  | opCancel user invId =>
      simp only [stepOp]
      dsimp only [cancel]
      repeat' split
      all_goals first
        | exact ⟨[], (List.append_nil _).symm⟩
        | exact ⟨_, rfl⟩
  | opComplete user invId today now =>
      simp only [stepOp]
      dsimp only [complete]
      repeat' split
      all_goals exact ⟨[], (List.append_nil _).symm⟩
  | opAdminApprove invId =>
      simp only [stepOp]
      dsimp only [adminApprove]
      repeat' split
      all_goals exact ⟨[], (List.append_nil _).symm⟩
  | opAdminReject invId =>
      simp only [stepOp]
      dsimp only [adminReject]
      repeat' split
      all_goals exact ⟨[], (List.append_nil _).symm⟩
  | opForceApprove adminUser invId now =>
      simp only [stepOp]
      dsimp only [forceApprove]
      repeat' split
      all_goals exact ⟨[], (List.append_nil _).symm⟩
  | opCreateWithdrawal user wtype ids =>
      simp only [stepOp]
      dsimp only [createWithdrawal]
      repeat' split
      all_goals exact ⟨[], (List.append_nil _).symm⟩
  | opProcessWithdrawal wid act now =>
      simp only [stepOp]
      dsimp only [processWithdrawal]
      repeat' split
      all_goals exact ⟨[], (List.append_nil _).symm⟩
  | opCreateInvestment user pkgId amount startD endD =>
      exact ⟨[], (List.append_nil _).symm⟩
  | opCreatePayment user invId amount now =>
      exact ⟨[], (List.append_nil _).symm⟩

/-- Fixture state with a single pre-existing ledger entry of amount 100. -/
def s0c7 : EngineState :=
  { packages := [], investments := [], payments := [], withdrawals := []
    ledger := [{ id := 0, user := 1, investment := none,
                 transaction_type := "investment", amount := 100, status := "completed",
                 payment_method := "", payment_reference := "", description := "d" }] }

/-- C7 counterexample: the admin update_transaction endpoint rewrites a pre-existing
Transaction's amount in place (100 becomes 999), so the ledger rows are not immutable
under every operation the source exposes. -/
theorem c7_admin_update_mutates_ledger :
    (s0c7.ledger.find? (fun t => t.id == 0)).map Transaction.amount = some 100 ∧
    (((updateTransaction s0c7 "INV-0" (some 999) none).2).ledger.find?
      (fun t => t.id == 0)).map Transaction.amount = some 999 :=
  ⟨rfl, rfl⟩

/-- C8: cancelling a pending Investment of amount A appends exactly one refund ledger
entry of amount A, increments the package available_slots by exactly one, removes the
Investment row, and executes the ledger write before the deletion (the effect trace);
cancelling a non-pending Investment answers 400 and changes nothing. -/
theorem c8_cancel_refund_contract (s : EngineState) (user invId : Nat)
    (inv : Investment) (pkg : Package)
    (hfind : findUserInvestment s user invId = some inv)
    (hpkg : findPackage s inv.package = some pkg) :
    (inv.status = "pending" →
      ∃ t : Transaction,
        (cancel s user invId).2.1.ledger = s.ledger ++ [t] ∧
        t.transaction_type = "refund" ∧
        t.amount = inv.amount ∧
        (findPackage (cancel s user invId).2.1 inv.package).map Package.available_slots
          = some (pkg.available_slots + 1) ∧
        findUserInvestment (cancel s user invId).2.1 user invId = none ∧
        (cancel s user invId).2.2
          = [Eff.ledgerWrite, Eff.slotIncrement, Eff.investmentDelete]) ∧
    (inv.status ≠ "pending" →
      cancel s user invId = (⟨400, "Only pending investments can be cancelled"⟩, s, [])) := by
  constructor
  · intro hp
    have hstatus : (inv.status == "pending") = true := beq_iff_eq.mpr hp
    unfold cancel
    simp only [hfind, hstatus, if_true]
    refine ⟨_, rfl, rfl, rfl, ?_, ?_, trivial⟩
    · have hmap := find_map_comm s.packages (fun g => g.id == inv.package)
        (fun g => { g with available_slots := g.available_slots + 1 })
        (fun x => rfl) pkg hpkg
      exact (congrArg (Option.map Package.available_slots) hmap).trans rfl
    · exact find_filter_out s.investments invId user
  · intro hp
    have hstatus : (inv.status == "pending") = false := beq_eq_false_iff_ne.mpr hp
    unfold cancel
    simp only [hfind, hstatus, Bool.false_eq_true, if_false]

/-- C8 witness: cancelling the pending fixture investment of amount 500 leaves the
refund trace in order, raises pkgA to two available slots, and removes the row;
cancelling the completed fixture is a 400 no-op. -/
theorem c8_cancel_refund_contract_witness :
    ((cancel s0 1 1).2.1.ledger.map Transaction.amount = [500] ∧
      (cancel s0 1 1).2.2
        = [Eff.ledgerWrite, Eff.slotIncrement, Eff.investmentDelete] ∧
      (findPackage (cancel s0 1 1).2.1 1).map Package.available_slots = some 2 ∧
      findUserInvestment (cancel s0 1 1).2.1 1 1 = none) ∧
    cancel s0c5 1 1 = (⟨400, "Only pending investments can be cancelled"⟩, s0c5, []) := by
  have h := c8_cancel_refund_contract s0 1 1 invA pkgA rfl rfl
  obtain ⟨t, h1, h2, h3, h4, h5, h6⟩ := h.1 rfl
  have hterm := (c8_cancel_refund_contract s0c5 1 1 invC5 pkgA rfl rfl).2 (by decide)
  refine ⟨⟨?_, h6, h4, h5⟩, hterm⟩
  rw [h1]
  simp only [List.map_append, List.map_cons, List.map_nil, h3]
  rfl

/-- C9: for every non-empty selection of eligible investments the created withdrawal
request carries amount sum of actual_return minus sum of principal for the interest
and reinvest types, and sum of actual_return for the full type. -/
theorem c9_withdrawal_amount_formula (s : EngineState) (user : Nat) (wtype : String)
    (ids : List Nat) (hne : selectedInvestments s user ids ≠ []) :
    ∃ w : Withdrawal,
      (createWithdrawal s user wtype ids).2.withdrawals = s.withdrawals ++ [w] ∧
      ((wtype = "interest" ∨ wtype = "reinvest") →
        w.amount = sumReturns (selectedInvestments s user ids)
          - sumPrincipal (selectedInvestments s user ids)) ∧
      (wtype = "full" → w.amount = sumReturns (selectedInvestments s user ids)) := by
  have helig : eligibleInvestments s user ≠ [] := by
    intro h
    apply hne
    unfold selectedInvestments
    rw [h]
    cases ids.isEmpty <;> simp
  have h1 : (eligibleInvestments s user).isEmpty = false := by
    simpa using helig
  have h2 : (selectedInvestments s user ids).isEmpty = false := by
    simpa using hne
  unfold createWithdrawal
  simp only [h1, h2, Bool.false_eq_true, if_false]
  refine ⟨_, rfl, ?_, ?_⟩
  · intro h
    rcases h with h | h <;> rw [h] <;> rfl
  · intro h
    rw [h]
    rfl

/-- Fixture completed investment with principal 100 and return 130. -/
def invW1 : Investment :=
  { id := 1, user := 1, package := 1, amount := 100, status := "completed",
    start_date := 0, end_date := 10, completed_date := some 10, actual_return := 130,
    withdrawal_request := none }

/-- Fixture completed investment with principal 50 and return 55. -/
def invW2 : Investment := { invW1 with id := 2, amount := 50, actual_return := 55 }

/-- Fixture state with the two completed, unlinked investments of the spec example. -/
def s0c9 : EngineState :=
  { packages := [], investments := [invW1, invW2], payments := [], ledger := [],
    withdrawals := [] }

/-- C9 witness: on investments of principal 100 with return 130 and principal 50 with
return 55, the full type yields 185 and the interest type yields 35, as the spec
example demands. -/
theorem c9_withdrawal_amount_formula_witness :
    (createWithdrawal s0c9 1 "full" []).2.withdrawals.map Withdrawal.amount = [185] ∧
    (createWithdrawal s0c9 1 "interest" []).2.withdrawals.map Withdrawal.amount
      = [35] := by
  obtain ⟨wf, hwf, _, hfull⟩ :=
    c9_withdrawal_amount_formula s0c9 1 "full" [] (by decide)
  obtain ⟨wi, hwi, hint, _⟩ :=
    c9_withdrawal_amount_formula s0c9 1 "interest" [] (by decide)
  have hsel : selectedInvestments s0c9 1 [] = [invW1, invW2] := rfl
  have hsum : sumReturns (selectedInvestments s0c9 1 []) = 185 := by
    rw [hsel]
    norm_num [sumReturns, invW1, invW2]
  have hprin : sumPrincipal (selectedInvestments s0c9 1 []) = 150 := by
    rw [hsel]
    norm_num [sumPrincipal, invW1, invW2]
  have h0 : List.map Withdrawal.amount s0c9.withdrawals = [] := rfl
  constructor
  · rw [hwf]
    simp only [List.map_append, h0, List.nil_append, List.map_cons, List.map_nil,
      hfull rfl, hsum]
  · rw [hwi]
    simp only [List.map_append, h0, List.nil_append, List.map_cons, List.map_nil,
      hint (Or.inl rfl), hsum, hprin]
    norm_num

/-- C10 amended: the verify endpoint answers 404 and mutates nothing only when the
supplied reference matches no payment of the caller AND the caller has no pending
payment; with a pending payment present the source instead adopts the unknown
reference onto that payment and proceeds with gateway verification. -/
theorem c10_verify_unknown_reference_amended (s : EngineState) (user : Nat)
    (reference : String) (gw : GatewayResp) (now : Nat)
    (h1 : reference ≠ "")
    (h2 : findPaymentByRefUser s reference user = none)
    (h3 : mostRecentPending s user = none) :
    verify s user reference gw now = (⟨404, "Payment not found"⟩, s) := by
  unfold verify
  rw [if_neg (by simp [h1])]
  simp only [h2, h3]

/-- Fixture pending payment of user 1 carrying reference ref1, linked to nothing. -/
def payC10 : Payment := { payA with investment := none }

/-- Fixture state for the verify fallback: only the unlinked pending payment. -/
def s0c10 : EngineState :=
  { packages := [], investments := [], payments := [payC10], ledger := [],
    withdrawals := [] }

/-- Verify called with a reference (refB) matching no payment of the caller. -/
def r10 : Resp × EngineState := verify s0c10 1 "refB" ⟨false, "", ""⟩ 5

/-- C10 counterexample: with a pending payment on file, verify with an unknown
reference does not answer 404 and does mutate payment state: it rebinds the pending
payment's paystack_reference to the unknown reference. -/
theorem c10_fallback_rebinds_pending_payment :
    ¬ (r10.1.code = 404) ∧
    (r10.2.payments.find? (fun p => p.id == 1)).map Payment.paystack_reference
      = some "refB" ∧
    r10.2 ≠ s0c10 := by
  exact ⟨by decide, rfl, by decide⟩

/-- Fixture state with no payments at all. -/
def s0c10e : EngineState :=
  { packages := [], investments := [], payments := [], ledger := [], withdrawals := [] }

/-- C10 witness: with no matching and no pending payment, verify answers 404 and
returns the state unchanged. -/
theorem c10_verify_unknown_reference_amended_witness :
    verify s0c10e 1 "refX" ⟨true, "success", ""⟩ 3
      = (⟨404, "Payment not found"⟩, s0c10e) :=
  c10_verify_unknown_reference_amended s0c10e 1 "refX" ⟨true, "success", ""⟩ 3
    (by decide) rfl rfl

end AgriInvest
